import Mathlib

/-!
Verification of the SSH sandbox launcher (src/ssh.py) against its
natural-language specification.

The whole program is the single function `main` in src/ssh.py plus the
nested helper `format_time`.  This file gives a shallow embedding of the
parts the claims are about:

* `format_time` (src/ssh.py lines 161-165);
* mount-spec parsing (lines 84-101), including models of the Python
  stdlib operations `Path(p).expanduser()` and `Path(p).name` that the
  source calls;
* the volume mapping (lines 103-119), where a handle produced by
  `modal.Volume.from_name(name, create_if_missing=True)` is represented
  by the name itself, since `from_name` is deterministic and idempotent
  in the name;
* the base-image selection with its registry fallback (lines 47-60);
* the keyword arguments of the `modal.Sandbox.create` call (lines
  126-146);
* the supervisory loop with its three termination call sites (lines
  157-245), embedded as a fuel-bounded trace semantics over an
  environment that supplies the wall-clock readings, the poll results
  and the (optional) operator interrupt.

Machine reals (Python floats returned by `time.time()`) are modelled by
`ℚ`: the loop only ever subtracts two clock readings and compares the
difference against constants, so the embedding is exact on every
comparison the code performs.
-/

namespace SSHLauncher

/-! ### format_time (src/ssh.py lines 161-165)

`format_time` computes `hours = int(seconds // 3600)`,
`minutes = int((seconds % 3600) // 60)` and renders them with the
`"%02d"`-style format `f"{hours:02d}:{minutes:02d}"`.  The claims apply
it to whole-second counts, so the model takes a `Nat`; `pad2` is the
two-digit zero padding that Python's `{:02d}` performs on nonnegative
inputs. -/

/-- Python's `"{:02d}".format n` for a nonnegative `n`: pad with a
leading zero to at least two digits. -/
def pad2 (n : Nat) : String :=
  if n < 10 then "0" ++ toString n else toString n

/-- From src/ssh.py lines 161-165: seconds to `HH:MM`. -/
def format_time (seconds : Nat) : String :=
  pad2 (seconds / 3600) ++ ":" ++ pad2 ((seconds % 3600) / 60)

/-! ### Path helpers (Python stdlib, as used at src/ssh.py lines 92-99)

Paths are modelled as `List Char`.  `expandUser home p` models
`Path(p).expanduser()` for the own-home shorthand forms the spec talks
about: `~` alone and a `~/`-prefixed path; any other path is returned
unchanged.  `pathName` models `Path(p).name`: the last path component
after splitting on `/`, with empty components and `.` components
dropped (pathlib's normalisation), and `""` when none remains. -/

/-- Model of `Path(p).expanduser()` for the shorthand forms `~` and
`~/rest`; other inputs are returned unchanged. -/
def expandUser (home : List Char) : List Char → List Char
  | [] => []
  | c :: rest =>
    if c = '~' then
      match rest with
      | [] => home
      | c2 :: _ => if c2 = '/' then home ++ rest else c :: rest
    else c :: rest

/-- Split a character list on `/` separators (keeping empty chunks). -/
def splitSlash : List Char → List (List Char)
  | [] => [[]]
  | c :: cs =>
    if c = '/' then [] :: splitSlash cs
    else
      match splitSlash cs with
      | [] => [[c]]
      | h :: t => (c :: h) :: t

/-- Model of `Path(p).name`: the last `/`-separated component of `p`
after dropping empty and `.` components, or the empty name. -/
def pathName (p : List Char) : List Char :=
  (((splitSlash p).filter
      (fun comp => decide (comp ≠ []) && decide (comp ≠ ['.']))).getLast?).getD []

/-! ### Mount-spec parsing (src/ssh.py lines 84-101)

For each spec the source does:
```text
if not spec: continue
if ":" in spec:
    local, remote = spec.split(":", 1)
    remote_path = remote
else:
    local = spec
    remote_path = f"/mounts/\x7bPath(local).expanduser().name\x7d"
mounts_list.append(Mount.from_local_dir(str(Path(local).expanduser()),
                                        remote_path=remote_path))
```
`breakAtColon` is Python's `spec.split(":", 1)` restricted to the case
where a colon is present: it returns the part before the first colon and
everything after it. -/

/-- Split at the first `:` — `some (before, after)` when a colon occurs,
`none` otherwise.  Mirrors `spec.split(":", 1)` when `":" in spec`. -/
def breakAtColon : List Char → Option (List Char × List Char)
  | [] => none
  | c :: cs =>
    if c = ':' then some ([], cs)
    else
      match breakAtColon cs with
      | some (l, r) => some (c :: l, r)
      | none => none

/-- From src/ssh.py lines 88-101: one mount spec to the
`(local, remote)` pair handed to `Mount.from_local_dir`, or `none` for
the empty spec (the `continue` at line 90).  The local path is
home-expanded in both branches (line 99); without a colon the remote
path is `/mounts/` followed by the expanded local path's final
component (line 96). -/
def parseMountSpec (home : List Char) (spec : List Char) :
    Option (List Char × List Char) :=
  if spec = [] then none
  else
    match breakAtColon spec with
    | some (l, r) => some (expandUser home l, r)
    | none =>
      some (expandUser home spec,
            ("/mounts/").toList ++ pathName (expandUser home spec))

/-- From src/ssh.py lines 85-101: the `mounts_list` built from the
repeatable `--mount` options. -/
def buildMounts (home : List Char) (specs : List (List Char)) :
    List (List Char × List Char) :=
  specs.filterMap (parseMountSpec home)

/-! ### Volume mapping (src/ssh.py lines 103-119)

`volume_config` is a Python dict; insertion keeps the position of an
existing key and overwrites its value, otherwise appends.  The handle
stored for a name is `modal.Volume.from_name(name, create_if_missing=True)`,
which is determined by the name, so it is represented by the name. -/

/-- Python dict assignment `m[k] = v` on an association list: replace
the value at an existing key in place, else append the pair. -/
def dictInsert : List (String × String) → String → String → List (String × String)
  | [], k, v => [(k, v)]
  | (k', v') :: rest, k, v =>
    if k' = k then (k, v) :: rest else (k', v') :: dictInsert rest k v

/-- From src/ssh.py line 117: the mount path for a volume name. -/
def volKey (n : String) : String := "/vol/" ++ n

/-- One step of the volume loop (src/ssh.py lines 112-118): skip an
empty name, otherwise write the handle under `/vol/<name>`. -/
def volStep (m : List (String × String)) (n : String) : List (String × String) :=
  if n = "" then m else dictInsert m (volKey n) n

/-- From src/ssh.py lines 104-119: fold the volume names into
`volume_config`, skipping empty names (line 113). -/
def buildVolumeConfig (names : List String) : List (String × String) :=
  names.foldl volStep []

/-- Association-list lookup (Python dict read). -/
def alookup : List (String × String) → String → Option String
  | [], _ => none
  | (k', v) :: rest, k => if k' = k then some v else alookup rest k

/-! ### Base-image selection (src/ssh.py lines 47-60)

```text
if image:
    try:
        runtime_image = modal.Image.from_registry(image)
    except Exception:
        runtime_image = modal.Image.debian_slim(
            python_version=add_python if add_python else None)
else:
    runtime_image = modal.Image.debian_slim(
        python_version=add_python if add_python else None)
```
The outcome of the external `from_registry` call is supplied as the
boolean `registryResolves`; the body has no other error channel, so the
model is a total function — the `except Exception` swallows the failure
and no error reaches the operator. -/

/-- The base image chosen at src/ssh.py lines 47-60. -/
inductive BaseImage where
  | fromRegistry (ref : String)
  | debianSlim (pythonVersion : Option String)
deriving DecidableEq

/-- From src/ssh.py lines 47-60: base-image selection.
`registryResolves` is whether `modal.Image.from_registry image` would
succeed; on failure the `except Exception:` branch silently selects the
`debian_slim` default. -/
def resolveBase (image addPython : String) (registryResolves : Bool) : BaseImage :=
  if image ≠ "" then
    if registryResolves then BaseImage.fromRegistry image
    else BaseImage.debianSlim (if addPython ≠ "" then some addPython else none)
  else BaseImage.debianSlim (if addPython ≠ "" then some addPython else none)

/-! ### Sandbox creation kwargs (src/ssh.py lines 126-146)

`sb_kwargs` always carries `app`, `image` and `unencrypted_ports=[22]`
(lines 127-129); each of the six optional entries is added only behind
its guard (lines 131-144).  Python's `if timeout and timeout > 0`
first tests the integer's truthiness (`timeout != 0`) and then the
comparison, and likewise for `cpu` and `memory`; `if gpu`,
`if volume_config`, `if mounts_list` are emptiness tests.
`float(cpu)` is modelled as the exact cast into `ℚ`. -/

/-- The keyword arguments assembled for `modal.Sandbox.create`
(src/ssh.py lines 126-146).  `hasApp` and `hasImage` record the two
unconditionally present entries; an optional entry that is `none` is
absent from the request. -/
structure SbKwargs where
  hasApp : Bool
  hasImage : Bool
  unencryptedPorts : List Nat
  timeout : Option Int
  gpu : Option String
  volumes : Option (List (String × String))
  cpu : Option ℚ
  memory : Option Int
  mounts : Option (List (List Char × List Char))
deriving DecidableEq

/-- From src/ssh.py lines 126-146: build `sb_kwargs` from the resolved
options. -/
def mkSbKwargs (cpu memory timeout : Int) (gpu : String)
    (volumeConfig : List (String × String))
    (mountsList : List (List Char × List Char)) : SbKwargs :=
  { hasApp := true
    hasImage := true
    unencryptedPorts := [22]
    timeout := if timeout ≠ 0 ∧ 0 < timeout then some (timeout * 60 * 60) else none
    gpu := if gpu ≠ "" then some gpu else none
    volumes := if volumeConfig ≠ [] then some volumeConfig else none
    cpu := if cpu ≠ 0 ∧ 0 < cpu then some ((cpu : ℚ)) else none
    memory := if memory ≠ 0 ∧ 0 < memory then some (memory * 1024) else none
    mounts := if mountsList ≠ [] then some mountsList else none }

/-- The full option-to-request pipeline: mount specs and volume names
are resolved as at src/ssh.py lines 84-119 and then packed into the
creation kwargs of lines 126-146. -/
def requestOfOptions (cpu memory timeout : Int) (gpu : String)
    (mountSpecs : List (List Char)) (volNames : List String)
    (home : List Char) : SbKwargs :=
  mkSbKwargs cpu memory timeout gpu
    (buildVolumeConfig volNames) (buildMounts home mountSpecs)

/-! ### The supervisory loop (src/ssh.py lines 157-245)

The loop is embedded as a fuel-bounded trace semantics.  An `Env`
supplies everything the loop observes from outside:

* `startTime` — the `time.time()` reading at line 158;
* `times i` — the `time.time()` reading at the top of iteration `i`
  (line 183);
* `alive i` — whether `sb.poll()` at iteration `i` would report the
  sandbox still running (`poll() is None`), absent a prior local
  terminate;
* `pollErrAt i` — whether that `sb.poll()` call raises instead
  (line 191);
* `interruptAt` — the iteration at whose start a `KeyboardInterrupt`
  arrives (before the iteration's poll), if any;
* `finalAlive` / `finalPollErr` / `finalTime` — the behaviour of the
  `sb.poll()` in the `finally:` block (line 236) when no local
  terminate-and-wait has happened yet.

One platform fact is built in: after `sb.terminate()` followed by
`sb.wait(raise_on_termination=False)` the sandbox is terminated, so the
`finally:` poll then reports it as exited and the safety net does not
fire again. -/

/-- The three `sb.terminate()` call sites: the watchdog timeout path
(line 200), the `KeyboardInterrupt` handler (line 226), and the
`finally:` safety net (line 238). -/
inductive Site where
  | timeoutSite
  | interruptSite
  | finallySite
deriving DecidableEq

/-- Observable events of one invocation: liveness checks
(`pollOk alive` for a successful `sb.poll()`, `pollErr` for a raising
one), terminate requests tagged with their call site and the elapsed
wall-clock time at which they are issued, `sb.wait` calls, and progress
indicator refreshes. -/
inductive Event where
  | pollOk (alive : Bool)
  | pollErr
  | terminate (site : Site) (elapsed : ℚ)
  | waitCall
  | progressRefresh (elapsed : ℚ)
deriving DecidableEq

/-- The outside world as seen by the supervisory loop. -/
structure Env where
  startTime : ℚ
  times : Nat → ℚ
  alive : Nat → Bool
  pollErrAt : Nat → Bool
  interruptAt : Option Nat
  finalAlive : Bool
  finalPollErr : Bool
  finalTime : ℚ

/-- Python truthiness of the `timeout_seconds` optional (lines 169 and
197): `None` and `0` are falsy. -/
def truthy : Option ℚ → Bool
  | none => false
  | some q => decide (q ≠ 0)

/-- From src/ssh.py line 159 (and identically guarded at lines
131-133): `timeout * 60 * 60 if timeout and timeout > 0 else None`,
with the hour count an integer and the product read as a rational for
comparison against wall-clock differences. -/
def timeoutSecondsOf (timeoutHours : Int) : Option ℚ :=
  if timeoutHours ≠ 0 ∧ 0 < timeoutHours
  then some ((timeoutHours : ℚ) * 60 * 60) else none

/-- From src/ssh.py lines 167-179: the progress bar is constructed iff
`timeout_seconds` is truthy. -/
def pbarCreatedOf (timeoutHours : Int) : Bool :=
  truthy (timeoutSecondsOf timeoutHours)

/-- Events of the `finally:` block (src/ssh.py lines 233-241).
`terminated` records whether a local terminate-and-wait has already
completed (timeout or interrupt path); in that case the poll reports
the sandbox exited and the safety net is a no-op.  Otherwise the poll
either raises (caught at line 240, nothing more happens), reports the
sandbox exited, or reports it running — only then do lines 238-239
terminate and wait. -/
def finallyEvents (env : Env) (terminated : Bool) : List Event :=
  if terminated then [Event.pollOk false]
  else if env.finalPollErr then [Event.pollErr]
  else if env.finalAlive then
    [Event.pollOk true,
     Event.terminate Site.finallySite (env.finalTime - env.startTime),
     Event.waitCall]
  else [Event.pollOk false]

/-- From src/ssh.py lines 181-241: the event trace of the `try`/
`except KeyboardInterrupt`/`finally` region, starting at iteration `i`
with `lastPU` the current `last_progress_update`, for at most `fuel`
further iterations (a truncated run emits no `finally:` events, the
loop being still live).  `T` is `timeout_seconds`.  Per iteration,
in source order: the interrupt (if it arrives here) jumps to the
handler at lines 223-232; otherwise the poll at line 188 may raise
(break, line 194) or report exit (break, line 190); then, when
`timeout_seconds` is truthy, expiry (`elapsed >= timeout_seconds`,
line 198) terminates and waits, else the progress indicator refreshes
when 600 seconds have passed since the last update (lines 209-219);
finally the loop sleeps and re-polls. -/
def runFrom (env : Env) (T : Option ℚ) : Nat → Nat → ℚ → List Event
  | 0, _, _ => []
  | Nat.succ fuel, i, lastPU =>
    if env.interruptAt = some i then
      Event.terminate Site.interruptSite (env.times i - env.startTime) ::
        Event.waitCall :: finallyEvents env true
    else if env.pollErrAt i then
      Event.pollErr :: finallyEvents env false
    else if env.alive i = false then
      Event.pollOk false :: finallyEvents env false
    else if truthy T then
      if T.getD 0 ≤ env.times i - env.startTime then
        Event.pollOk true ::
          Event.terminate Site.timeoutSite (env.times i - env.startTime) ::
          Event.waitCall :: finallyEvents env true
      else if 600 ≤ env.times i - lastPU then
        Event.pollOk true :: Event.progressRefresh (env.times i - env.startTime) ::
          runFrom env T fuel (i + 1) (env.times i)
      else
        Event.pollOk true :: runFrom env T fuel (i + 1) lastPU
    else
      Event.pollOk true :: runFrom env T fuel (i + 1) lastPU

/-- One whole supervised invocation with a configured `timeout` of
`timeoutHours` hours: the loop of src/ssh.py lines 181-241 from
iteration 0, with `last_progress_update = start_time` (line 179). -/
def runMain (env : Env) (fuel : Nat) (timeoutHours : Int) : List Event :=
  runFrom env (timeoutSecondsOf timeoutHours) fuel 0 env.startTime

/-- Is an event a terminate request? -/
def isTerminate : Event → Bool
  | Event.terminate _ _ => true
  | _ => false

/-- Is an event a timeout-triggered terminate request? -/
def isTimeoutTerminate : Event → Bool
  | Event.terminate Site.timeoutSite _ => true
  | _ => false

/-- Is an event a progress indicator refresh? -/
def isProgress : Event → Bool
  | Event.progressRefresh _ => true
  | _ => false

/-- Number of terminate requests in a trace. -/
def terminateCount (es : List Event) : Nat :=
  (es.filter isTerminate).length

/-- `guardedAux prev es`: every terminate request in `es` is
immediately preceded by a successful liveness check that reported the
sandbox alive (`prev` is the event just before `es`, if any).  This is
the formal reading of "each termination call site is guarded by a
liveness check first". -/
def guardedAux : Option Event → List Event → Bool
  | _, [] => true
  | prev, e :: rest =>
    (match e with
     | Event.terminate _ _ => decide (prev = some (Event.pollOk true))
     | _ => true) && guardedAux (some e) rest

/-- Every terminate request in the trace is immediately preceded by a
liveness check reporting the sandbox alive. -/
def allGuarded (es : List Event) : Bool := guardedAux none es

/-- Like `guardedAux` but exempting the interrupt call site, which the
source does not guard. -/
def guardedAuxNI : Option Event → List Event → Bool
  | _, [] => true
  | prev, e :: rest =>
    (match e with
     | Event.terminate s _ =>
       decide (s = Site.interruptSite) || decide (prev = some (Event.pollOk true))
     | _ => true) && guardedAuxNI (some e) rest

/-- Every non-interrupt terminate request is immediately preceded by a
liveness check reporting the sandbox alive. -/
def nonInterruptGuarded (es : List Event) : Bool := guardedAuxNI none es

/-- Concrete environment refuting the all-sites-guarded clause: the
sandbox is already dead and a `KeyboardInterrupt` arrives at the very
start of the loop, before any `sb.poll()` has run. -/
def envInterruptEarly : Env :=
  { startTime := 0
    times := fun _ => 0
    alive := fun _ => false
    pollErrAt := fun _ => false
    interruptAt := some 0
    finalAlive := false
    finalPollErr := false
    finalTime := 0 }

/-- Concrete environment for the watchdog witness: clock readings 0,
1800, 3600 seconds after start, sandbox alive throughout, no poll
failures, no interrupt. -/
def envSteady : Env :=
  { startTime := 0
    times := fun i => (1800 * i : Nat)
    alive := fun _ => true
    pollErrAt := fun _ => false
    interruptAt := none
    finalAlive := false
    finalPollErr := false
    finalTime := 3600 }

/-- Concrete environment in which the sandbox is already dead before
the watchdog could fire and no interrupt occurs. -/
def envDeadEarly : Env :=
  { startTime := 0
    times := fun i => (7200 * i : Nat)
    alive := fun _ => false
    pollErrAt := fun _ => false
    interruptAt := none
    finalAlive := false
    finalPollErr := false
    finalTime := 7200 }

/-! ## Lemmas about the string and list helpers -/

theorem breakAtColon_split (a b : List Char) (ha : ':' ∉ a) :
    breakAtColon (a ++ ':' :: b) = some (a, b) := by
  induction a with
  | nil => simp [breakAtColon]
  | cons c cs ih =>
    have hc : c ≠ ':' := fun h => ha (h ▸ List.mem_cons_self c cs)
    have hcs : ':' ∉ cs := fun h => ha (List.mem_cons_of_mem _ h)
    simp [breakAtColon, hc, ih hcs]

theorem breakAtColon_eq_none (s : List Char) (hs : ':' ∉ s) :
    breakAtColon s = none := by
  induction s with
  | nil => rfl
  | cons c cs ih =>
    have hc : c ≠ ':' := fun h => hs (h ▸ List.mem_cons_self c cs)
    have hcs : ':' ∉ cs := fun h => hs (List.mem_cons_of_mem _ h)
    simp [breakAtColon, hc, ih hcs]

theorem alookup_dictInsert_self (m : List (String × String)) (k v : String) :
    alookup (dictInsert m k v) k = some v := by
  induction m with
  | nil => simp [dictInsert, alookup]
  | cons p rest ih =>
    obtain ⟨k', v'⟩ := p
    by_cases h : k' = k
    · simp [dictInsert, h, alookup]
    · simp [dictInsert, h, alookup, ih]

theorem alookup_dictInsert_ne (m : List (String × String)) (k v k' : String)
    (h : k ≠ k') : alookup (dictInsert m k v) k' = alookup m k' := by
  induction m with
  | nil => simp [dictInsert, alookup, h]
  | cons p rest ih =>
    obtain ⟨ka, va⟩ := p
    by_cases hk : ka = k
    · subst hk
      simp [dictInsert, alookup, h]
    · simp [dictInsert, hk, alookup, ih]

theorem mem_keys_dictInsert {m : List (String × String)} {k v a : String}
    (h : a ∈ (dictInsert m k v).map Prod.fst) :
    a = k ∨ a ∈ m.map Prod.fst := by
  induction m with
  | nil => simpa [dictInsert] using h
  | cons p rest ih =>
    obtain ⟨k', v'⟩ := p
    by_cases hk : k' = k
    · subst hk
      rw [dictInsert, if_pos rfl] at h
      rcases List.mem_cons.mp h with h | h
      · exact Or.inl h
      · exact Or.inr (List.mem_cons_of_mem _ h)
    · rw [dictInsert, if_neg hk] at h
      rcases List.mem_cons.mp h with h | h
      · exact Or.inr (h ▸ List.mem_cons_self _ _)
      · rcases ih h with h | h
        · exact Or.inl h
        · exact Or.inr (List.mem_cons_of_mem _ h)

theorem keys_dictInsert_nodup (m : List (String × String)) (k v : String)
    (hm : (m.map Prod.fst).Nodup) :
    ((dictInsert m k v).map Prod.fst).Nodup := by
  induction m with
  | nil => simp [dictInsert]
  | cons p rest ih =>
    obtain ⟨k', v'⟩ := p
    rw [List.map_cons, List.nodup_cons] at hm
    by_cases hk : k' = k
    · subst hk
      rw [dictInsert, if_pos rfl, List.map_cons, List.nodup_cons]
      exact hm
    · rw [dictInsert, if_neg hk, List.map_cons, List.nodup_cons]
      refine ⟨fun hmem => ?_, ih hm.2⟩
      rcases mem_keys_dictInsert hmem with h | h
      · exact hk h
      · exact hm.1 h

theorem volKey_injective {a b : String} (h : volKey a = volKey b) : a = b := by
  have hd : ("/vol/" ++ a).data = ("/vol/" ++ b).data := congrArg String.data h
  rw [String.data_append, String.data_append] at hd
  exact String.ext (List.append_cancel_left hd)

theorem foldl_volStep_preserve (names : List String) :
    ∀ (acc : List (String × String)) (k : String),
      (∀ n ∈ names, n ≠ "" → volKey n ≠ k) →
      alookup (List.foldl volStep acc names) k = alookup acc k := by
  induction names with
  | nil => intro acc k _; rfl
  | cons n tl ih =>
    intro acc k h
    rw [List.foldl_cons, ih _ _ (fun x hx => h x (List.mem_cons_of_mem _ hx))]
    by_cases hn : n = ""
    · rw [volStep, if_pos hn]
    · rw [volStep, if_neg hn,
        alookup_dictInsert_ne _ _ _ _ (h n (List.mem_cons_self _ _) hn)]

theorem foldl_volStep_lookup (names : List String) :
    ∀ (acc : List (String × String)) (n : String), n ∈ names → n ≠ "" →
      alookup (List.foldl volStep acc names) (volKey n) = some n := by
  induction names with
  | nil => intro acc n h; exact absurd h (List.not_mem_nil n)
  | cons m tl ih =>
    intro acc n hmem hne
    by_cases htl : n ∈ tl
    · exact ih (volStep acc m) n htl hne
    · have hnm : n = m := by
        rcases List.mem_cons.mp hmem with h | h
        · exact h
        · exact absurd h htl
      subst hnm
      rw [List.foldl_cons,
        foldl_volStep_preserve tl _ _
          (fun x hx hxe hk => htl (by rw [← volKey_injective hk]; exact hx)),
        volStep, if_neg hne, alookup_dictInsert_self]

theorem foldl_volStep_nodup (names : List String) :
    ∀ acc : List (String × String), ((acc.map Prod.fst)).Nodup →
      ((List.foldl volStep acc names).map Prod.fst).Nodup := by
  induction names with
  | nil => intro acc h; exact h
  | cons n tl ih =>
    intro acc h
    rw [List.foldl_cons]
    refine ih _ ?_
    by_cases hn : n = ""
    · rw [volStep, if_pos hn]; exact h
    · rw [volStep, if_neg hn]; exact keys_dictInsert_nodup _ _ _ h

theorem foldl_volStep_skip_empty (names : List String) :
    ∀ acc : List (String × String),
      List.foldl volStep acc names =
        List.foldl volStep acc (names.filter (fun n => !(n == ""))) := by
  induction names with
  | nil => intro acc; rfl
  | cons n tl ih =>
    intro acc
    by_cases hn : n = ""
    · subst hn
      rw [List.foldl_cons]
      rw [show volStep acc "" = acc from rfl]
      rw [ih acc]
      rfl
    · have hb : (!(n == "")) = true := by simp [hn]
      rw [List.filter_cons, if_pos hb, List.foldl_cons, List.foldl_cons, ih]

/-! ## Lemmas about the supervisory loop -/

theorem terminateCount_cons (e : Event) (es : List Event) :
    terminateCount (e :: es) =
      (if isTerminate e = true then 1 else 0) + terminateCount es := by
  unfold terminateCount
  rw [List.filter_cons]
  by_cases h : isTerminate e = true
  · rw [if_pos h, if_pos h, List.length_cons]; omega
  · rw [if_neg h, if_neg h]; omega

theorem terminateCount_finallyEvents_true (env : Env) :
    terminateCount (finallyEvents env true) = 0 := rfl

theorem terminateCount_finallyEvents_le (env : Env) (b : Bool) :
    terminateCount (finallyEvents env b) ≤ 1 := by
  unfold finallyEvents
  split_ifs <;> simp [terminateCount, List.filter, isTerminate]

theorem guardedAuxNI_finallyEvents (env : Env) (b : Bool) (prev : Option Event) :
    guardedAuxNI prev (finallyEvents env b) = true := by
  unfold finallyEvents
  split_ifs <;> simp [guardedAuxNI]

theorem timeout_terminate_not_mem_finallyEvents (env : Env) (b : Bool) (q : ℚ) :
    Event.terminate Site.timeoutSite q ∉ finallyEvents env b := by
  unfold finallyEvents
  split_ifs <;> simp

theorem filter_timeout_finallyEvents (env : Env) (b : Bool) :
    (finallyEvents env b).filter isTimeoutTerminate = [] := by
  unfold finallyEvents
  split_ifs <;> rfl

theorem filter_progress_finallyEvents (env : Env) (b : Bool) :
    (finallyEvents env b).filter isProgress = [] := by
  unfold finallyEvents
  split_ifs <;> rfl

theorem terminateCount_runFrom_le (env : Env) (T : Option ℚ) :
    ∀ (fuel i : Nat) (lastPU : ℚ),
      terminateCount (runFrom env T fuel i lastPU) ≤ 1 := by
  intro fuel
  induction fuel with
  | zero => intro i lastPU; simp [runFrom, terminateCount]
  | succ fuel ih =>
    intro i lastPU
    rw [runFrom]
    split_ifs with h1 h2 h3 h4 h5 h6
    · simp [terminateCount_cons, isTerminate, terminateCount_finallyEvents_true]
    · have := terminateCount_finallyEvents_le env false
      simp [terminateCount_cons, isTerminate]
      omega
    · have := terminateCount_finallyEvents_le env false
      simp [terminateCount_cons, isTerminate]
      omega
    · simp [terminateCount_cons, isTerminate, terminateCount_finallyEvents_true]
    · have := ih (i + 1) (env.times i)
      simp [terminateCount_cons, isTerminate]
      omega
    · have := ih (i + 1) lastPU
      simp [terminateCount_cons, isTerminate]
      omega
    · have := ih (i + 1) lastPU
      simp [terminateCount_cons, isTerminate]
      omega

theorem guardedAuxNI_runFrom (env : Env) (T : Option ℚ) :
    ∀ (fuel i : Nat) (lastPU : ℚ) (prev : Option Event),
      guardedAuxNI prev (runFrom env T fuel i lastPU) = true := by
  intro fuel
  induction fuel with
  | zero => intro i lastPU prev; rfl
  | succ fuel ih =>
    intro i lastPU prev
    rw [runFrom]
    split_ifs with h1 h2 h3 h4 h5 h6
    · simp [guardedAuxNI, guardedAuxNI_finallyEvents]
    · simp [guardedAuxNI, guardedAuxNI_finallyEvents]
    · simp [guardedAuxNI, guardedAuxNI_finallyEvents]
    · simp [guardedAuxNI, guardedAuxNI_finallyEvents]
    · simp [guardedAuxNI, ih (i + 1) (env.times i)]
    · simp [guardedAuxNI, ih (i + 1) lastPU]
    · simp [guardedAuxNI, ih (i + 1) lastPU]

theorem terminateCount_dead_at_start (env : Env) (T : Option ℚ)
    (hint : env.interruptAt ≠ some 0) (hdead : env.alive 0 = false)
    (hfin : env.finalAlive = false) :
    ∀ fuel : Nat, terminateCount (runFrom env T fuel 0 env.startTime) = 0 := by
  intro fuel
  cases fuel with
  | zero => rfl
  | succ fuel =>
    rw [runFrom]
    rw [if_neg hint]
    have hfe : terminateCount (finallyEvents env false) = 0 := by
      unfold finallyEvents
      rw [if_neg (by simp)]
      split_ifs with h1 h2
      · rfl
      · exact absurd h2 (by simp [hfin])
      · rfl
    by_cases h2 : env.pollErrAt 0 = true
    · rw [if_pos h2]
      simp [terminateCount_cons, isTerminate, hfe]
    · rw [if_neg h2, if_pos hdead]
      simp [terminateCount_cons, isTerminate, hfe]

theorem timeout_payload_ge (env : Env) (t : ℚ) :
    ∀ (fuel i : Nat) (lastPU q : ℚ),
      Event.terminate Site.timeoutSite q ∈ runFrom env (some t) fuel i lastPU →
      t ≤ q := by
  intro fuel
  induction fuel with
  | zero => intro i lastPU q h; simp [runFrom] at h
  | succ fuel ih =>
    intro i lastPU q h
    rw [runFrom] at h
    split_ifs at h with h1 h2 h3 h4 h5 h6
    · simp only [List.mem_cons] at h
      rcases h with h | h | h
      · exact absurd h (by simp)
      · exact absurd h (by simp)
      · exact absurd h (timeout_terminate_not_mem_finallyEvents env true q)
    · simp only [List.mem_cons] at h
      rcases h with h | h
      · exact absurd h (by simp)
      · exact absurd h (timeout_terminate_not_mem_finallyEvents env false q)
    · simp only [List.mem_cons] at h
      rcases h with h | h
      · exact absurd h (by simp)
      · exact absurd h (timeout_terminate_not_mem_finallyEvents env false q)
    · simp only [List.mem_cons] at h
      rcases h with h | h | h | h
      · exact absurd h (by simp)
      · injection h with hsite hq
        rw [hq]
        simpa using h5
      · exact absurd h (by simp)
      · exact absurd h (timeout_terminate_not_mem_finallyEvents env true q)
    · simp only [List.mem_cons] at h
      rcases h with h | h | h
      · exact absurd h (by simp)
      · exact absurd h (by simp)
      · exact ih (i + 1) (env.times i) q h
    · simp only [List.mem_cons] at h
      rcases h with h | h
      · exact absurd h (by simp)
      · exact ih (i + 1) lastPU q h
    · simp only [List.mem_cons] at h
      rcases h with h | h
      · exact absurd h (by simp)
      · exact ih (i + 1) lastPU q h

theorem runFrom_none_filter_timeout (env : Env) :
    ∀ (fuel i : Nat) (lastPU : ℚ),
      (runFrom env none fuel i lastPU).filter isTimeoutTerminate = [] := by
  intro fuel
  induction fuel with
  | zero => intro i lastPU; rfl
  | succ fuel ih =>
    intro i lastPU
    rw [runFrom]
    by_cases h1 : env.interruptAt = some i
    · rw [if_pos h1]
      simp [List.filter_cons, isTimeoutTerminate, filter_timeout_finallyEvents]
    · rw [if_neg h1]
      by_cases h2 : env.pollErrAt i = true
      · rw [if_pos h2]
        simp [List.filter_cons, isTimeoutTerminate, filter_timeout_finallyEvents]
      · rw [if_neg h2]
        by_cases h3 : env.alive i = false
        · rw [if_pos h3]
          simp [List.filter_cons, isTimeoutTerminate, filter_timeout_finallyEvents]
        · rw [if_neg h3,
            if_neg (show ¬ truthy (none : Option ℚ) = true from by simp [truthy])]
          simp [List.filter_cons, isTimeoutTerminate, ih (i + 1) lastPU]

theorem runFrom_none_filter_progress (env : Env) :
    ∀ (fuel i : Nat) (lastPU : ℚ),
      (runFrom env none fuel i lastPU).filter isProgress = [] := by
  intro fuel
  induction fuel with
  | zero => intro i lastPU; rfl
  | succ fuel ih =>
    intro i lastPU
    rw [runFrom]
    by_cases h1 : env.interruptAt = some i
    · rw [if_pos h1]
      simp [List.filter_cons, isProgress, filter_progress_finallyEvents]
    · rw [if_neg h1]
      by_cases h2 : env.pollErrAt i = true
      · rw [if_pos h2]
        simp [List.filter_cons, isProgress, filter_progress_finallyEvents]
      · rw [if_neg h2]
        by_cases h3 : env.alive i = false
        · rw [if_pos h3]
          simp [List.filter_cons, isProgress, filter_progress_finallyEvents]
        · rw [if_neg h3,
            if_neg (show ¬ truthy (none : Option ℚ) = true from by simp [truthy])]
          simp [List.filter_cons, isProgress, ih (i + 1) lastPU]

theorem watchdog_reach (env : Env) (t : ℚ) (ht : t ≠ 0) (i : Nat)
    (hint : ∀ k, k ≤ i → env.interruptAt ≠ some k)
    (herr : ∀ k, k ≤ i → env.pollErrAt k = false)
    (halive : ∀ k, k ≤ i → env.alive k = true)
    (hfire : t ≤ env.times i - env.startTime) :
    ∀ (fuel j : Nat) (lastPU : ℚ), j ≤ i → i < j + fuel →
      (∀ k, j ≤ k → k < i → env.times k - env.startTime < t) →
      Event.terminate Site.timeoutSite (env.times i - env.startTime) ∈
        runFrom env (some t) fuel j lastPU := by
  intro fuel
  induction fuel with
  | zero => intro j lastPU hj hlt _; omega
  | succ fuel ih =>
    intro j lastPU hj hlt hbelow
    rw [runFrom]
    rw [if_neg (hint j hj)]
    rw [if_neg (by simp [herr j hj])]
    rw [if_neg (by simp [halive j hj])]
    rw [if_pos (by simp [truthy, ht])]
    by_cases hji : j = i
    · subst hji
      rw [if_pos (by simpa using hfire)]
      exact List.mem_cons_of_mem _ (List.mem_cons_self _ _)
    · have hjlt : j < i := lt_of_le_of_ne hj hji
      have hnot : ¬ ((some t).getD 0 ≤ env.times j - env.startTime) := by
        simp only [Option.getD_some]
        exact not_le.mpr (hbelow j le_rfl hjlt)
      rw [if_neg hnot]
      split_ifs with hprog
      · exact List.mem_cons_of_mem _ (List.mem_cons_of_mem _
          (ih (j + 1) (env.times j) hjlt (by omega)
            (fun k hk1 hk2 => hbelow k (by omega) hk2)))
      · exact List.mem_cons_of_mem _
          (ih (j + 1) lastPU hjlt (by omega)
            (fun k hk1 hk2 => hbelow k (by omega) hk2))

/-! ## The claims -/

/-- Claim C1, counterexample.  The claim asserts that each of the three
termination call sites — the timeout path, the interrupt path and the
finally-block safety net — is guarded by a liveness check first.
`allGuarded` formalises that reading: every terminate request in the
trace is immediately preceded by a successful liveness check reporting
the sandbox alive.  In `envInterruptEarly` the sandbox is already dead
and a `KeyboardInterrupt` arrives before the first `sb.poll()`; the
handler at src/ssh.py line 226 still issues a terminate request with no
liveness check before it, so the guard clause is false of the code
(while the trace still carries exactly one terminate request). -/
theorem termination_guard_counterexample_C1 :
    allGuarded (runMain envInterruptEarly 3 1) = false ∧
    terminateCount (runMain envInterruptEarly 3 1) = 1 := by
  decide

/-- Claim C1, amended.  Per invocation at most one terminate request is
issued; the timeout-path and finally-block terminates are each
immediately preceded by a liveness check reporting the sandbox alive
(the interrupt path alone is unguarded); and if liveness is already
false at the first poll and no interrupt occurs, no terminate request
is issued at all — in particular none when the sandbox died before the
watchdog could fire. -/
theorem termination_effectively_once_C1 (env : Env) (fuel : Nat)
    (timeoutHours : Int) :
    terminateCount (runMain env fuel timeoutHours) ≤ 1 ∧
    nonInterruptGuarded (runMain env fuel timeoutHours) = true ∧
    (env.interruptAt ≠ some 0 → env.alive 0 = false → env.finalAlive = false →
      terminateCount (runMain env fuel timeoutHours) = 0) :=
  ⟨terminateCount_runFrom_le env _ fuel 0 env.startTime,
   guardedAuxNI_runFrom env _ fuel 0 env.startTime none,
   fun h1 h2 h3 => terminateCount_dead_at_start env _ h1 h2 h3 fuel⟩

/-- Witness for the amended claim C1: in a run where the sandbox is
already dead at the first poll and no interrupt occurs, no terminate
request at all is issued. -/
theorem termination_effectively_once_C1_witness :
    terminateCount (runMain envDeadEarly 4 1) = 0 :=
  (termination_effectively_once_C1 envDeadEarly 4 1).2.2
    (by decide) (by decide) (by decide)

/-- Claim C2: for a configured timeout of `H` hours (`H > 0`), the
creation request carries `H*3600` seconds, the local watchdog threshold
is the same `H*3600` seconds, a timeout-triggered terminate is never
issued while elapsed time is below `H*3600`, and the watchdog fires at
the first poll iteration whose elapsed time reaches `H*3600` (provided
the loop is still running there: sandbox alive, polls succeeding, no
interrupt). -/
theorem watchdog_timeout_C2 (H : Int) (hH : 0 < H) (env : Env) (fuel : Nat) :
    (∀ (c m : Int) (g : String) (vc : List (String × String))
      (ml : List (List Char × List Char)),
      (mkSbKwargs c m H g vc ml).timeout = some (H * 3600)) ∧
    timeoutSecondsOf H = some (((H * 3600 : Int) : ℚ)) ∧
    (∀ q : ℚ, Event.terminate Site.timeoutSite q ∈ runMain env fuel H →
      ((H * 3600 : Int) : ℚ) ≤ q) ∧
    (∀ i : Nat, i < fuel →
      (∀ k, k ≤ i → env.interruptAt ≠ some k) →
      (∀ k, k ≤ i → env.pollErrAt k = false) →
      (∀ k, k ≤ i → env.alive k = true) →
      (∀ k, k < i → env.times k - env.startTime < ((H * 3600 : Int) : ℚ)) →
      ((H * 3600 : Int) : ℚ) ≤ env.times i - env.startTime →
      Event.terminate Site.timeoutSite (env.times i - env.startTime) ∈
        runMain env fuel H) := by
  have hne : H ≠ 0 := by omega
  have hcast : ((H * 3600 : Int) : ℚ) = (H : ℚ) * 60 * 60 := by push_cast; ring
  have hT : timeoutSecondsOf H = some ((H : ℚ) * 60 * 60) := by
    unfold timeoutSecondsOf
    rw [if_pos ⟨hne, hH⟩]
  have hq0 : (0 : ℚ) < (H : ℚ) := by exact_mod_cast hH
  have htne : (H : ℚ) * 60 * 60 ≠ 0 := by
    have : (0 : ℚ) < (H : ℚ) * 60 * 60 := by nlinarith
    exact this.ne'
  refine ⟨?_, ?_, ?_, ?_⟩
  · intro c m g vc ml
    show (if H ≠ 0 ∧ 0 < H then some (H * 60 * 60) else none) = some (H * 3600)
    rw [if_pos ⟨hne, hH⟩]
    congr 1
    omega
  · rw [hT, hcast]
  · intro q hq
    rw [show runMain env fuel H =
        runFrom env (some ((H : ℚ) * 60 * 60)) fuel 0 env.startTime from by
      rw [runMain, hT]] at hq
    rw [hcast]
    exact timeout_payload_ge env ((H : ℚ) * 60 * 60) fuel 0 env.startTime q hq
  · intro i hi hint herr halive hbelow hfire
    rw [runMain, hT]
    exact watchdog_reach env _ htne i hint herr halive
      (by rw [← hcast]; exact hfire) fuel 0 env.startTime (Nat.zero_le i)
      (by omega) (fun k hk1 hk2 => by rw [← hcast]; exact hbelow k hk2)

/-- Witness for claim C2: with a one-hour timeout and clock readings
0, 1800, 3600 seconds, the watchdog issues its terminate at the
iteration where elapsed time reaches 3600 seconds. -/
theorem watchdog_timeout_C2_witness :
    Event.terminate Site.timeoutSite (envSteady.times 2 - envSteady.startTime) ∈
      runMain envSteady 3 1 :=
  (watchdog_timeout_C2 1 (by decide) envSteady 3).2.2.2 2 (by decide)
    (by decide) (by decide) (by decide)
    (by intro k hk; interval_cases k <;> norm_num [envSteady])
    (by norm_num [envSteady])

/-- Claim C3: with `timeout = 0` the watchdog is disabled — the trace
of any run contains no timeout-triggered terminate request and no
progress-indicator refresh, and no progress indicator is created. -/
theorem zero_timeout_no_watchdog_C3 (env : Env) (fuel : Nat) :
    pbarCreatedOf 0 = false ∧
    (runMain env fuel 0).filter isTimeoutTerminate = [] ∧
    (runMain env fuel 0).filter isProgress = [] := by
  refine ⟨rfl, ?_, ?_⟩
  · rw [runMain, show timeoutSecondsOf 0 = none from rfl]
    exact runFrom_none_filter_timeout env fuel 0 env.startTime
  · rw [runMain, show timeoutSecondsOf 0 = none from rfl]
    exact runFrom_none_filter_progress env fuel 0 env.startTime

/-- Claim C4: a non-empty mount spec containing `:` is split at the
first separator into `(local, remote)` with the remote substring kept
verbatim; without a separator the remote path is `/mounts/` followed by
the local path's final component; the local path is home-expanded in
both cases. -/
theorem mount_spec_parse_C4 (home spec : List Char) (hne : spec ≠ []) :
    (∀ a b, spec = a ++ ':' :: b → ':' ∉ a →
      parseMountSpec home spec = some (expandUser home a, b)) ∧
    (':' ∉ spec →
      parseMountSpec home spec =
        some (expandUser home spec,
          ("/mounts/").toList ++ pathName (expandUser home spec))) := by
  constructor
  · intro a b hab ha
    subst hab
    unfold parseMountSpec
    rw [if_neg hne, breakAtColon_split a b ha]
  · intro hs
    unfold parseMountSpec
    rw [if_neg hne, breakAtColon_eq_none spec hs]

/-- Witness for claim C4: `~/data:/x:y` splits at the first colon only,
keeping the remote substring `/x:y` verbatim with its embedded colon,
and the local part is home-expanded. -/
theorem mount_spec_parse_C4_witness :
    parseMountSpec (("/home/u").toList) (("~/data:/x:y").toList) =
      some (expandUser (("/home/u").toList) (("~/data").toList),
        ("/x:y").toList) :=
  (mount_spec_parse_C4 (("/home/u").toList) (("~/data:/x:y").toList)
    (by decide)).1 (("~/data").toList) (("/x:y").toList) (by decide) (by decide)

/-- Claim C5: every non-empty volume name is registered under the key
`/vol/<name>`, empty names are skipped entirely, and duplicate names
collapse to a single mapping entry (the mapping's keys are free of
duplicates). -/
theorem volume_mapping_C5 (names : List String) :
    (∀ n, n ∈ names → n ≠ "" →
      alookup (buildVolumeConfig names) (volKey n) = some n) ∧
    ((buildVolumeConfig names).map Prod.fst).Nodup ∧
    buildVolumeConfig names =
      buildVolumeConfig (names.filter (fun n => !(n == ""))) :=
  ⟨fun n hmem hne => foldl_volStep_lookup names [] n hmem hne,
   foldl_volStep_nodup names [] (by simp),
   foldl_volStep_skip_empty names []⟩

/-- Witness for claim C5: with the name `data` given twice (and an
empty name in between), the mapping holds the handle under
`/vol/data`. -/
theorem volume_mapping_C5_witness :
    alookup (buildVolumeConfig ["data", "", "data", "models"])
      (volKey ("data")) = some ("data") :=
  (volume_mapping_C5 ["data", "", "data", "models"]).1 ("data")
    (by decide) (by decide)

/-- Claim C6: an invocation with no options set sends a creation
request with none of the cpu, memory, gpu, timeout, volumes or mounts
entries present — only the app, the image and unencrypted port 22. -/
theorem default_request_omits_C6 (home : List Char) :
    requestOfOptions 0 0 0 ("") [] [] home =
      { hasApp := true
        hasImage := true
        unencryptedPorts := [22]
        timeout := none
        gpu := none
        volumes := none
        cpu := none
        memory := none
        mounts := none } := rfl

/-- Claim C7: when an explicit registry image reference is supplied and
resolving it fails, the selection silently falls back to the default
`debian_slim` base — the very image the no-image default path would
choose — and the selection function is total, surfacing no error. -/
theorem registry_fallback_C7 (img py : String) (h : img ≠ "") :
    resolveBase img py false =
      BaseImage.debianSlim (if py ≠ "" then some py else none) ∧
    resolveBase img py false = resolveBase ("") py true := by
  constructor
  · unfold resolveBase
    rw [if_pos h, if_neg (show ¬(false = true) from by simp)]
  · unfold resolveBase
    rw [if_pos h, if_neg (show ¬(false = true) from by simp),
      if_neg (show ¬(("" : String) ≠ ("" : String)) from by simp)]

/-- Witness for claim C7: a failing `ubuntu:22.04` resolution falls
back to the plain `debian_slim` default. -/
theorem registry_fallback_C7_witness :
    resolveBase ("ubuntu:22.04") ("") false = BaseImage.debianSlim none ∧
    resolveBase ("ubuntu:22.04") ("") false = resolveBase ("") ("") true :=
  ⟨(registry_fallback_C7 ("ubuntu:22.04") ("") (by decide)).1.trans (by decide),
   (registry_fallback_C7 ("ubuntu:22.04") ("") (by decide)).2⟩

/-- Claim C8: `format_time` renders a count of seconds as zero-padded
`HH:MM`; in particular `format_time 0 = "00:00"` and
`format_time 3661 = "01:01"`, and a count of `h` whole hours plus `m`
whole minutes renders as `pad2 h ++ ":" ++ pad2 m`. -/
theorem format_time_C8 :
    format_time 0 = "00:00" ∧ format_time 3661 = "01:01" ∧
    ∀ h m, m < 60 →
      format_time (h * 3600 + m * 60) = pad2 h ++ ":" ++ pad2 m := by
  refine ⟨by decide, by decide, ?_⟩
  intro h m hm
  have h1 : (h * 3600 + m * 60) / 3600 = h := by omega
  have h2 : (h * 3600 + m * 60) % 3600 / 60 = m := by omega
  unfold format_time
  rw [h1, h2]

/-- Witness for claim C8 at one hour and one minute. -/
theorem format_time_C8_witness :
    format_time (1 * 3600 + 1 * 60) = pad2 1 ++ ":" ++ pad2 1 :=
  format_time_C8.2.2 1 1 (by decide)

/-- Claim C9: a positive memory option of `M` GB is sent as exactly
`M * 1024` MiB. -/
theorem memory_mib_C9 (M : Int) (hM : 0 < M) (c t : Int) (g : String)
    (vc : List (String × String)) (ml : List (List Char × List Char)) :
    (mkSbKwargs c M t g vc ml).memory = some (M * 1024) := by
  show (if M ≠ 0 ∧ 0 < M then some (M * 1024) else none) = some (M * 1024)
  rw [if_pos ⟨by omega, hM⟩]

/-- Witness for claim C9 at `M = 2`. -/
theorem memory_mib_C9_witness :
    (mkSbKwargs 0 2 0 ("") [] []).memory = some (2 * 1024) :=
  memory_mib_C9 2 (by decide) 0 0 ("") [] []

/-- Claim C10: a negative cpu, memory or timeout behaves exactly as if
unset — the strictly-positive guards omit it from the creation request,
and a negative timeout additionally disables the watchdog and the
progress indicator (the whole supervised run is identical to a
`timeout = 0` run). -/
theorem negative_options_unset_C10 (c m t : Int) (g : String)
    (vc : List (String × String)) (ml : List (List Char × List Char)) :
    (c < 0 → mkSbKwargs c m t g vc ml = mkSbKwargs 0 m t g vc ml) ∧
    (m < 0 → mkSbKwargs c m t g vc ml = mkSbKwargs c 0 t g vc ml) ∧
    (t < 0 → mkSbKwargs c m t g vc ml = mkSbKwargs c m 0 g vc ml ∧
      timeoutSecondsOf t = none ∧ pbarCreatedOf t = false ∧
      ∀ (env : Env) (fuel : Nat), runMain env fuel t = runMain env fuel 0) := by
  refine ⟨fun hc => ?_, fun hm => ?_, fun ht => ⟨?_, ?_, ?_, ?_⟩⟩
  · unfold mkSbKwargs
    rw [if_neg (show ¬(c ≠ 0 ∧ 0 < c) from by omega),
      if_neg (show ¬((0 : Int) ≠ 0 ∧ 0 < (0 : Int)) from by omega)]
  · unfold mkSbKwargs
    rw [if_neg (show ¬(m ≠ 0 ∧ 0 < m) from by omega),
      if_neg (show ¬((0 : Int) ≠ 0 ∧ 0 < (0 : Int)) from by omega)]
  · unfold mkSbKwargs
    rw [if_neg (show ¬(t ≠ 0 ∧ 0 < t) from by omega),
      if_neg (show ¬((0 : Int) ≠ 0 ∧ 0 < (0 : Int)) from by omega)]
  · unfold timeoutSecondsOf
    rw [if_neg (show ¬(t ≠ 0 ∧ 0 < t) from by omega)]
  · unfold pbarCreatedOf timeoutSecondsOf
    rw [if_neg (show ¬(t ≠ 0 ∧ 0 < t) from by omega)]
    rfl
  · intro env fuel
    unfold runMain timeoutSecondsOf
    rw [if_neg (show ¬(t ≠ 0 ∧ 0 < t) from by omega),
      if_neg (show ¬((0 : Int) ≠ 0 ∧ 0 < (0 : Int)) from by omega)]

/-- Witness for claim C10 at `cpu = -1` and `timeout = -3`. -/
theorem negative_options_unset_C10_witness :
    mkSbKwargs (-1) 4 2 ("") [] [] = mkSbKwargs 0 4 2 ("") [] [] ∧
    timeoutSecondsOf (-3) = none ∧
    runMain envDeadEarly 2 (-3) = runMain envDeadEarly 2 0 :=
  ⟨(negative_options_unset_C10 (-1) 4 2 ("") [] []).1 (by decide),
   ((negative_options_unset_C10 0 0 (-3) ("") [] []).2.2 (by decide)).2.1,
   ((negative_options_unset_C10 0 0 (-3) ("") [] []).2.2
     (by decide)).2.2.2 envDeadEarly 2⟩

end SSHLauncher
